import Mathlib

/-!
Shallow embedding of the client-side i18n engine of `remix-polyglot`
(`src/client.tsx`): the deduplicating promise caches used by `load`, the
failure/eviction behaviour of the two fetch producers, the navigation-batch
commit protocol of `Handoff`, the store merge performed by `loadPhrases`, and
the lookup of `usePolyglot`.

Execution model: JavaScript is single-threaded and cooperative; the only
suspension points of `load` are its `await`s.  `load` is therefore embedded as
two synchronous phases — `loadStart` (entry up to `await indexes[locale]`) and
`loadResume` (the continuation after the index promise resolves) — plus the
producer continuations `indexOnFetchSettled` / `phrasesOnFetchSettled` that run
when a fetch settles.  Promises are identified by allocation number so that
"both callers resolve to the same object" is expressible; the values promises
settle with are supplied by the environment at resume time, exactly as fetch
responses are.
-/

namespace RemixPolyglot

/-- A JavaScript `Error` as the code observes it: only `name` (used to
distinguish `AbortError`) and `message` matter to `src/client.tsx`. -/
structure JsError where
  name : String
  message : String
deriving Repr, DecidableEq

/-- The test at lines 322 and 357 comparing `err.name` against the string
AbortError. -/
def isAbortError (e : JsError) : Bool :=
  e.name == "AbortError"

/-- JSON values as delivered by `res.json()`. -/
inductive Json where
  | str (s : String)
  | num (n : Int)
  | arr (xs : List Json)
  | obj (fields : List (String × Json))

/-- Modelled from the spec: `isRecordOfStrings` lives in `src/common.ts`, which
is not part of the repository snapshot; per §6 the Index body "must be a flat
string→string mapping".  Returns the mapping when the value is an object all of
whose values are strings. -/
def asRecordOfStrings : Json → Option (List (String × String))
  | .obj fields =>
    fields.mapM (fun f => match f.2 with
      | .str s => some (f.1, s)
      | _ => none)
  | _ => none

/-- Modelled from the spec: `isRecord` lives in `src/common.ts`, which is not
part of the repository snapshot; per §6 the Phrase Set body "must be a JSON
object (not array/primitive)". -/
def isRecord : Json → Bool
  | .obj _ => true
  | _ => false

/-- The composite cache/store key, written in the source as the template
literal of `locale`, a dash, and the namespace (lines 268 and 298). -/
def mkId (locale ns : String) : String :=
  locale ++ "-" ++ ns

/-- The status test of both producers: the code keeps the response when the
first character of `String(res.status)` is the digit 2 (lines 312 and 347). -/
def statusOk (status : Nat) : Bool :=
  (Nat.repr status).front == '2'

/-- Request URL, written in the source as baseUrl, slash, locale, slash, file
identifier (lines 309 and 344). -/
def resourceUrl (baseUrl locale fileId : String) : String :=
  baseUrl ++ "/" ++ locale ++ "/" ++ fileId

/-- Which of the two resource kinds a GET is for. -/
inductive ResKind where
  | indexFile
  | phraseFile
deriving Repr, DecidableEq

/-- One HTTP GET issued by a producer. -/
structure GetEvent where
  url : String
  kind : ResKind
deriving Repr, DecidableEq

/-- The `Caches` record of `src/client.tsx` (lines 41-44): two tables of
promises, embedded as maps from key to promise identity. -/
structure Caches where
  phrases : String → Option Nat
  indexes : String → Option Nat

/-- State threaded through the synchronous phases: the caches, the allocator
for promise identities, and the log of HTTP GETs issued so far. -/
structure LoadSt where
  caches : Caches
  nextPromiseId : Nat
  gets : List GetEvent

/-- The `HandoffData` fields `load` reads (line 294). -/
structure HandoffData where
  locale : String
  baseUrl : String

/-- Result of the synchronous entry phase of `load`. -/
inductive LoadStep1 where
  | cachedPhrases (p : Nat)
  | failedMissingLocaleConfig (e : JsError)
  | awaitIndex (ip : Nat)
deriving Repr, DecidableEq

/-- Synchronous entry phase of `load` (lines 297-337): the phrase-cache check,
the `manifest[locale]` check, and creation or join of the index cache entry.
Creating the entry runs the producer synchronously up to its `fetch`, so the
GET is issued and the entry stored before `load` suspends on it.  The
`!manifest[locale]` test is JavaScript falsiness: it fires on a missing entry
and on the empty string alike. -/
def loadStart (ns : String) (manifest : String → Option String)
    (hd : HandoffData) (st : LoadSt) : LoadSt × LoadStep1 :=
  let id := mkId hd.locale ns
  match st.caches.phrases id with
  | some p => (st, .cachedPhrases p)
  | none =>
    match manifest hd.locale with
    | none =>
      (st, .failedMissingLocaleConfig ⟨"Error", "Missing index for " ++ hd.locale⟩)
    | some entry =>
      if entry == "" then
        (st, .failedMissingLocaleConfig ⟨"Error", "Missing index for " ++ hd.locale⟩)
      else
        match st.caches.indexes hd.locale with
        | some ip => (st, .awaitIndex ip)
        | none =>
          let ip := st.nextPromiseId
          ({ caches :=
               { st.caches with
                 indexes := fun l => if l == hd.locale then some ip else st.caches.indexes l },
             nextPromiseId := ip + 1,
             gets := st.gets ++ [⟨resourceUrl hd.baseUrl hd.locale entry, .indexFile⟩] },
           .awaitIndex ip)

/-- Outcome of one fetch as the `try` block of the producer observes it: either the
`fetch` call itself rejected, or a response arrived with a status and the
outcome of `res.json()`. -/
inductive FetchOutcome where
  | rejected (e : JsError)
  | resp (status : Nat) (body : Except JsError Json)

/-- The wrapper applied to non-abort index failures (lines 325-331). -/
def wrapIndexError (locale msg : String) : JsError :=
  ⟨"Error", "Could not read index for " ++ locale ++ ". Reason: " ++ msg⟩

/-- Producer continuation for the index entry (lines 307-334): status check,
body parse, shape validation; any failure deletes the entry for `locale` from
the cache before rejecting, and an `AbortError` is re-rejected unchanged while
every other failure is wrapped by `wrapIndexError`.  On success the entry is
kept. -/
def indexOnFetchSettled (locale : String) (outcome : FetchOutcome) (c : Caches) :
    Caches × Except JsError (List (String × String)) :=
  let evicted : Caches :=
    { c with indexes := fun l => if l == locale then none else c.indexes l }
  let reject : JsError → Caches × Except JsError (List (String × String)) :=
    fun e =>
      (evicted, .error (if isAbortError e then e else wrapIndexError locale e.message))
  match outcome with
  | .rejected e => reject e
  | .resp status body =>
    if statusOk status then
      match body with
      | .error e => reject e
      | .ok j =>
        match asRecordOfStrings j with
        | some index => (c, .ok index)
        | none => reject ⟨"Error", "Invalid format"⟩
    else
      reject ⟨"Error", "Failed to load"⟩

/-- Result of the continuation of `load` after the index resolves. -/
inductive LoadStep2 where
  | failedMissingNamespace (e : JsError)
  | startedPhrases (p : Nat)
deriving Repr, DecidableEq

/-- Continuation of `load` after `await indexes[locale]` resolves (lines
337-372): the `!index[namespace]` falsiness check (firing on a missing entry
and on the empty string alike), then unconditional creation of a fresh
phrase-set entry — there is no second phrase-cache check here — whose producer
issues its GET synchronously; the new entry is stored and returned. -/
def loadResume (ns : String) (index : List (String × String))
    (hd : HandoffData) (st : LoadSt) : LoadSt × LoadStep2 :=
  let id := mkId hd.locale ns
  match index.lookup ns with
  | none =>
    (st, .failedMissingNamespace
      ⟨"Error", "Missing namespace " ++ ns ++ " on locale " ++ hd.locale⟩)
  | some file =>
    if file == "" then
      (st, .failedMissingNamespace
        ⟨"Error", "Missing namespace " ++ ns ++ " on locale " ++ hd.locale⟩)
    else
      let p := st.nextPromiseId
      ({ caches :=
           { st.caches with
             phrases := fun k => if k == id then some p else st.caches.phrases k },
         nextPromiseId := p + 1,
         gets := st.gets ++ [⟨resourceUrl hd.baseUrl hd.locale file, .phraseFile⟩] },
       .startedPhrases p)

/-- The wrapper applied to non-abort phrase failures (lines 359-366). -/
def wrapPhrasesError (ns locale msg : String) : JsError :=
  ⟨"Error", "Failed to load phrases of namespace " ++ ns ++ " in " ++ locale
    ++ ". Reason: " ++ msg⟩

/-- Producer continuation for a phrase-set entry (lines 342-369): status check,
body parse, `isRecord` validation; any failure deletes the entry for the
composite key before rejecting, with the same abort-versus-wrap distinction as
the index producer.  On success the entry is kept. -/
def phrasesOnFetchSettled (ns locale : String) (outcome : FetchOutcome) (c : Caches) :
    Caches × Except JsError Json :=
  let id := mkId locale ns
  let evicted : Caches :=
    { c with phrases := fun k => if k == id then none else c.phrases k }
  let reject : JsError → Caches × Except JsError Json :=
    fun e =>
      (evicted, .error (if isAbortError e then e else wrapPhrasesError ns locale e.message))
  match outcome with
  | .rejected e => reject e
  | .resp status body =>
    if statusOk status then
      match body with
      | .error e => reject e
      | .ok j =>
        if isRecord j then (c, .ok j)
        else reject ⟨"Error", "Invalid format"⟩
    else
      reject ⟨"Error", "Failed to load phrases"⟩

/-- The empty session state: both cache tables empty, no GET issued. -/
def emptyLoadSt : LoadSt :=
  ⟨⟨fun _ => none, fun _ => none⟩, 0, []⟩

/-- Concrete handoff data for the scenarios: locale `en`, base URL `/i18n`. -/
def hdEn : HandoffData :=
  ⟨"en", "/i18n"⟩

/-- Concrete manifest configuring locale `en` with index file `idx-en.json`. -/
def manifestEn : String → Option String :=
  fun l => if l == "en" then some "idx-en.json" else none

/-- Concrete index body: namespace `common` maps to `common-en.json`. -/
def indexBodyEn : Json :=
  .obj [("common", .str "common-en.json")]

/-- The resolved value of `indexBodyEn`. -/
def c1IndexVal : List (String × String) :=
  [("common", "common-en.json")]

/-- Caller A enters `load` for locale `en`, namespace `common` on the empty
state: it creates the
index entry and issues the index GET, then suspends. -/
def c1StepA : LoadSt × LoadStep1 :=
  loadStart "common" manifestEn hdEn emptyLoadSt

/-- Caller B enters `load` for the same locale and namespace while A is still
awaiting the index
promise: the phrase cache is still empty, so B passes the phrase-cache check
and joins the pending index promise. -/
def c1StepB : LoadSt × LoadStep1 :=
  loadStart "common" manifestEn hdEn c1StepA.1

/-- The index fetch resolves with HTTP 200 and a valid body; the producer
continuation validates it and keeps the entry. -/
def c1IndexSettled : Caches × Except JsError (List (String × String)) :=
  indexOnFetchSettled "en" (.resp 200 (.ok indexBodyEn)) c1StepB.1.caches

/-- State when the awaiters resume: the state after B entered, with the cache
as the producer left it. -/
def c1StA : LoadSt :=
  { c1StepB.1 with caches := c1IndexSettled.1 }

/-- The continuation of caller A runs first (registered first): it creates the
phrase entry and issues the first phrase GET. -/
def c1ResumeA : LoadSt × LoadStep2 :=
  loadResume "common" c1IndexVal hdEn c1StA

/-- The continuation of caller B runs next: having already passed the phrase-cache
check before suspending, it overwrites the entry and issues a second GET. -/
def c1ResumeB : LoadSt × LoadStep2 :=
  loadResume "common" c1IndexVal hdEn c1ResumeA.1

/-- Count of GETs of one kind in a log. -/
def countGets (k : ResKind) (gets : List GetEvent) : Nat :=
  gets.countP (fun g => g.kind == k)

/-- Outcome of the `loadPhrases` promise as awaited by a patched hook. -/
inductive TranslationOutcome where
  | resolved
  | failed (e : JsError)
deriving Repr, DecidableEq

/-- The catch handler attached to `promisedPhrases` (lines 213-220): an
`AbortError` is swallowed silently, any other failure is logged via
`console.error`; in both cases the handler returns normally, so the resulting
promise resolves.  The second component is the console-error log. -/
def catchTranslation : TranslationOutcome → Except JsError Unit × List JsError
  | .resolved => (.ok (), [])
  | .failed e => if isAbortError e then (.ok (), []) else (.ok (), [e])

/-- `Promise.all` on a pair: rejects when either side rejects, resolves with
the pair of values otherwise. -/
def promiseAll2 {α β : Type} (a : Except JsError α) (b : Except JsError β) :
    Except JsError (α × β) :=
  match a, b with
  | .ok x, .ok y => .ok (x, y)
  | .error e, _ => .error e
  | .ok _, .error e => .error e

/-- Body of a patched route hook after the batch push (lines 211-234):
`const [res] = await Promise.all([original(args), promisedPhrases?.catch(...)])`
followed by `return res`.  `orig` is the outcome of `original(args)`;
`translation` is `none` when no namespaces were requested, in which case the
hook pushed `undefined` and awaited it.  Returns the outcome of the wrapped hook
and the console-error log. -/
def wrappedHookResult {α : Type} (orig : Except JsError α)
    (translation : Option TranslationOutcome) : Except JsError α × List JsError :=
  let awaited := match translation with
    | none => (Except.ok (), ([] : List JsError))
    | some t => catchTranslation t
  ((promiseAll2 orig awaited.1).map Prod.fst, awaited.2)

/-- The Lookup Store update performed by `loadPhrases` (line 145):
`updateStore(current => ({ ...current, ...more }))` — JavaScript object
spread, an additive union in which keys of `more` override keys of
`current`. -/
def mergeStore {α : Type} (current more : String → Option α) : String → Option α :=
  fun k => match more k with
    | some v => some v
    | none => current k

/-- `usePolyglot` (lines 266-274): the namespace parameter defaults to
`common`; the store is consulted at the exact composite key and an error is
thrown when nothing is there.  Store values are Polyglot instances — objects,
always truthy — so the `!store[id]` test is exactly absence of the key. -/
def usePolyglot {α : Type} (store : String → Option α) (locale : String)
    (ns? : Option String) : Except JsError α :=
  let ns := ns?.getD "common"
  match store (mkId locale ns) with
  | none => .error ⟨"Error", "Unknown namespace " ++ ns ++ " in " ++ locale⟩
  | some entry => .ok entry

/-- One patched hook invocation within a navigation tick: the load promise it
pushed into the batch (`none` when it pushed `undefined`) and the locale, if
any, that `preloadTranslations` asked it to switch to. -/
structure Hook where
  ownLoad : Option Nat
  wantsLocale : Option String
deriving Repr, DecidableEq

/-- Observable events of a tick, newest first in a trace: a registered load
settling (success and failure alike, since the aggregate swallows failures)
and `setLocale` actually running. -/
inductive Ev where
  | settledLoad (i : Nat)
  | committedLocale (l : String)
deriving Repr, DecidableEq

/-- Modelled from the spec: the state of one Navigation Batch.  The batcher
package `ichschwoer/batch-resolve` is external and not in the repository
snapshot; per §4.3 its `push` returns a promise that settles, always
successfully, once all promises registered up to and including that call have
settled, and `batch.ref` is a mutable flag shared by every hook of the tick.
Every patched hook pushes synchronously before any fetch settles, so each
aggregate of each hook covers all registered loads of the tick. -/
structure TickState where
  pendingLoads : List Nat
  waitingHooks : List Hook
  scheduledCommits : List String
  refCurrent : Bool
  trace : List Ev
deriving Repr, DecidableEq

/-- Initial batch state of a tick: every push already performed, nothing
settled yet, `ref.current` false, no commit scheduled. -/
def initTick (loads : List Nat) (hooks : List Hook) : TickState :=
  ⟨loads, hooks, [], false, []⟩

/-- Scheduler commands of the cooperative single-threaded model. -/
inductive Cmd where
  | settleLoad (i : Nat)
  | runHook (h : Hook)
  | fireCommit (l : String)
deriving Repr, DecidableEq

/-- Truthiness of the `locale` value in `if (!ref.current && locale)` (line
223): absent and the empty string are falsy. -/
def localeTruthy : Option String → Bool
  | none => false
  | some l => !(l == "")

/-- One cooperative step of a tick.  A pending load may settle at any time; a
continuation of a hook may run once its own load (if any) has settled, and it
mirrors lines 223-232 of `Handoff`: when `ref.current` is still false and a
truthy locale was requested, it sets the flag and schedules the commit
callback on its aggregate, otherwise it merely waits on the aggregate; a
scheduled commit callback may fire only when every registered load of the
tick has settled — the aggregate-settlement semantics of §4.3.  Returns
`none` when the command is not enabled. -/
def stepCmd (s : TickState) : Cmd → Option TickState
  | .settleLoad i =>
    if s.pendingLoads.contains i then
      some { s with pendingLoads := s.pendingLoads.erase i,
                    trace := .settledLoad i :: s.trace }
    else none
  | .runHook h =>
    if s.waitingHooks.contains h
        && (match h.ownLoad with
            | some i => !(s.pendingLoads.contains i)
            | none => true) then
      if !s.refCurrent && localeTruthy h.wantsLocale then
        some { s with waitingHooks := s.waitingHooks.erase h,
                      refCurrent := true,
                      scheduledCommits := h.wantsLocale.getD "" :: s.scheduledCommits }
      else
        some { s with waitingHooks := s.waitingHooks.erase h }
    else none
  | .fireCommit l =>
    if s.scheduledCommits.contains l && s.pendingLoads.isEmpty then
      some { s with scheduledCommits := s.scheduledCommits.erase l,
                    trace := .committedLocale l :: s.trace }
    else none

/-- Run a list of scheduler commands from a state; `none` when some command
was not enabled at its turn. -/
def runCmds (s : TickState) : List Cmd → Option TickState
  | [] => some s
  | c :: cs => (stepCmd s c).bind (fun t => runCmds t cs)

/-- Number of `setLocale` events in a trace. -/
def countCommits (tr : List Ev) : Nat :=
  tr.countP (fun e => match e with | .committedLocale _ => true | _ => false)

/-- With the trace newest first: every commit event is strictly preceded by a
settle event for every registered load. -/
def commitsAfterSettles (loads : List Nat) : List Ev → Bool
  | [] => true
  | .committedLocale _ :: rest =>
    loads.all (fun i => rest.contains (Ev.settledLoad i)) && commitsAfterSettles loads rest
  | .settledLoad _ :: rest => commitsAfterSettles loads rest

/-- Inductive invariant of a batch: commit accounting is bounded by the
`ref.current` flag, every registered load is pending or already settled in
the trace, and the trace so far orders commits after settlements. -/
def tickInv (loads : List Nat) (s : TickState) : Prop :=
  (countCommits s.trace + s.scheduledCommits.length ≤ (if s.refCurrent then 1 else 0)) ∧
  (∀ i ∈ loads, i ∈ s.pendingLoads ∨ Ev.settledLoad i ∈ s.trace) ∧
  commitsAfterSettles loads s.trace = true

/-- Decidable equality for promise outcomes, used to evaluate scenarios. -/
instance {ε α : Type _} [DecidableEq ε] [DecidableEq α] : DecidableEq (Except ε α) :=
  fun a b =>
    match a, b with
    | .ok x, .ok y => decidable_of_iff (x = y) (by simp)
    | .error x, .error y => decidable_of_iff (x = y) (by simp)
    | .ok _, .error _ => isFalse (by simp)
    | .error _, .ok _ => isFalse (by simp)

/-- A session state whose phrase cache already holds promise `7` for the key
of locale `en`, namespace `common`. -/
def stWithPhrase : LoadSt :=
  ⟨⟨fun k => if k == mkId "en" "common" then some 7 else none, fun _ => none⟩, 8, []⟩

/-- A session state whose index cache already holds promise `4` for locale
`en` while the phrase cache is empty. -/
def stWithIndex : LoadSt :=
  ⟨⟨fun _ => none, fun l => if l == "en" then some 4 else none⟩, 5, []⟩

/-- A session state whose phrase cache holds promise `9` under the key stored
by a load for locale `en`, namespace `US-common`. -/
def stC9 : LoadSt :=
  ⟨⟨fun k => if k == mkId "en" "US-common" then some 9 else none, fun _ => none⟩, 10, []⟩

/-- A Lookup Store holding the value `42` under the key stored for locale
`en`, namespace `US-common`. -/
def storeC9 : String → Option Nat :=
  fun k => if k == mkId "en" "US-common" then some 42 else none

/-- A session state whose phrase cache already holds promise `7` for the key
of locale `de`, namespace `common`, while no manifest entry exists. -/
def stWithPhraseDe : LoadSt :=
  ⟨⟨fun k => if k == mkId "de" "common" then some 7 else none, fun _ => none⟩, 8, []⟩

/-- The `AbortError` a cancelled fetch rejects with. -/
def abortE : JsError :=
  ⟨"AbortError", "The operation was aborted."⟩

/-- A cache state with an in-flight index entry for locale `en`. -/
def cachesIdx : Caches :=
  ⟨fun _ => none, fun l => if l == "en" then some 0 else none⟩

/-- A cache state with a settled phrase entry and an index entry for `en`. -/
def cachesPh : Caches :=
  ⟨fun k => if k == mkId "en" "common" then some 1 else none,
   fun l => if l == "en" then some 0 else none⟩

/-- A Lookup Store with a single entry for locale `en`, namespace `common`. -/
def storeCur : String → Option Nat :=
  fun k => if k == mkId "en" "common" then some 1 else none

/-- New entries for one merge: a single entry for `en`, namespace `home`. -/
def storeMore : String → Option Nat :=
  fun k => if k == mkId "en" "home" then some 2 else none

/-- Hooks of the concrete witness tick: two nested route hooks, both asking
to switch to locale `es`, with loads `0` and `1`. -/
def c2Hooks : List Hook :=
  [⟨some 0, some "es"⟩, ⟨some 1, some "es"⟩]

/-- A concrete schedule for the witness tick: both loads settle, both hook
continuations run, the single scheduled commit fires. -/
def c2Cmds : List Cmd :=
  [.settleLoad 0, .settleLoad 1, .runHook ⟨some 0, some "es"⟩,
   .runHook ⟨some 1, some "es"⟩, .fireCommit "es"]

/-- The state the witness schedule ends in. -/
def c2Final : TickState :=
  ⟨[], [], [], true, [.committedLocale "es", .settledLoad 1, .settledLoad 0]⟩

/-- A manifest configuring every locale, for the key-collision scenario. -/
def manifestAll : String → Option String :=
  fun _ => some "idx.json"

end RemixPolyglot

namespace RemixPolyglot

/-- Claim C1 fails on the code at this concrete input: two calls to `load`
for the identical pair (en, common), the second arriving while the first is
still awaiting the index promise.  The index GET is deduplicated, but after
the index resolves each caller creates its own phrase-set entry, so two
phrase-set GETs are issued — not one as the claim states — and the callers
resolve to two distinct phrase promises (identities 1 and 2). -/
theorem C1_counterexample :
    c1IndexSettled.2 = .ok c1IndexVal ∧
    countGets .indexFile c1ResumeB.1.gets = 1 ∧
    countGets .phraseFile c1ResumeB.1.gets = 2 ∧
    c1ResumeA.2 = .startedPhrases 1 ∧
    c1ResumeB.2 = .startedPhrases 2 := by
  decide

/-- Claim C1 as amended: a call that finds the phrase entry present returns
that same entry with no new GET and no state change; a call that finds the
index entry in flight joins that same promise without issuing a GET, so at
most one index GET is performed per locale; but a second caller arriving
while the first still awaits the index passes the phrase-cache check and,
once the index resolves, creates its own phrase-set entry and GET, so two
such callers produce two phrase-set GETs and resolve to distinct phrase
promises. -/
theorem C1_dedup_amended :
    (∀ (ns : String) (manifest : String → Option String) (hd : HandoffData)
        (st : LoadSt) (p : Nat),
      st.caches.phrases (mkId hd.locale ns) = some p →
      loadStart ns manifest hd st = (st, .cachedPhrases p)) ∧
    (∀ (ns : String) (manifest : String → Option String) (hd : HandoffData)
        (st : LoadSt) (ip : Nat) (entry : String),
      st.caches.phrases (mkId hd.locale ns) = none →
      manifest hd.locale = some entry → entry ≠ "" →
      st.caches.indexes hd.locale = some ip →
      loadStart ns manifest hd st = (st, .awaitIndex ip)) ∧
    (countGets .indexFile c1ResumeB.1.gets = 1 ∧
     countGets .phraseFile c1ResumeB.1.gets = 2 ∧
     c1ResumeA.2 ≠ c1ResumeB.2) := by
  refine ⟨?_, ?_, ?_⟩
  · intro ns manifest hd st p h
    simp [loadStart, h]
  · intro ns manifest hd st ip entry h1 h2 h3 h4
    simp [loadStart, h1, h2, h3, h4]
  · decide

/-- Witness for the amended claim C1 at concrete states. -/
theorem C1_dedup_amended_witness :
    loadStart "common" manifestEn hdEn stWithPhrase = (stWithPhrase, .cachedPhrases 7) ∧
    loadStart "common" manifestEn hdEn stWithIndex = (stWithIndex, .awaitIndex 4) := by
  constructor
  · exact C1_dedup_amended.1 "common" manifestEn hdEn stWithPhrase 7 (by decide)
  · exact C1_dedup_amended.2.1 "common" manifestEn hdEn stWithIndex 4 "idx-en.json"
      (by decide) (by decide) (by decide) (by decide)

/-- Claim C5 fails on the code at this concrete input: an index that does
have an entry for namespace `common`, mapping it to the empty string, still
makes `load` fail with MissingNamespace, because line 338 tests JavaScript
falsiness rather than presence. -/
theorem C5_counterexample :
    [("common", "")].lookup "common" = some "" ∧
    (loadResume "common" [("common", "")] hdEn emptyLoadSt).2 =
      .failedMissingNamespace ⟨"Error", "Missing namespace common on locale en"⟩ := by
  decide

/-- Claim C5 as amended: after the index resolves, `load` fails with
MissingNamespace exactly when the index has no entry for the namespace or
maps it to the empty string; in that case the state is unchanged, so no
phrase-set GET is issued. -/
theorem C5_missing_namespace_amended :
    ∀ (ns : String) (index : List (String × String)) (hd : HandoffData) (st : LoadSt),
      ((index.lookup ns = none ∨ index.lookup ns = some "") →
        loadResume ns index hd st =
          (st, .failedMissingNamespace
            ⟨"Error", "Missing namespace " ++ ns ++ " on locale " ++ hd.locale⟩)) ∧
      ((loadResume ns index hd st).2 =
          .failedMissingNamespace
            ⟨"Error", "Missing namespace " ++ ns ++ " on locale " ++ hd.locale⟩ ↔
        (index.lookup ns = none ∨ index.lookup ns = some "")) := by
  intro ns index hd st
  constructor
  · rintro (h | h) <;> simp [loadResume, h]
  · constructor
    · intro h
      by_contra hc
      push_neg at hc
      obtain ⟨h1, h2⟩ := hc
      cases hl : index.lookup ns with
      | none => exact h1 hl
      | some file =>
        have hf : ¬ file = "" := by
          intro he
          exact h2 (he ▸ hl)
        simp [loadResume, hl, hf] at h
    · rintro (h | h) <;> simp [loadResume, h]

/-- Witness for the amended claim C5 at a concrete index. -/
theorem C5_missing_namespace_amended_witness :
    (loadResume "missing" c1IndexVal hdEn emptyLoadSt).2 =
      .failedMissingNamespace ⟨"Error", "Missing namespace missing on locale en"⟩ := by
  have h := (C5_missing_namespace_amended "missing" c1IndexVal hdEn emptyLoadSt).2.mpr
  have := h (by decide)
  exact this

/-- Claim C6: a phrase set already cached for the requested key is returned
first, before the manifest is consulted; otherwise, when the manifest has no
index-file reference for the locale, `load` fails with MissingLocaleConfig. -/
theorem C6_missing_locale_config :
    (∀ (ns : String) (manifest : String → Option String) (hd : HandoffData)
        (st : LoadSt) (p : Nat),
      st.caches.phrases (mkId hd.locale ns) = some p →
      loadStart ns manifest hd st = (st, .cachedPhrases p)) ∧
    (∀ (ns : String) (manifest : String → Option String) (hd : HandoffData)
        (st : LoadSt),
      st.caches.phrases (mkId hd.locale ns) = none →
      manifest hd.locale = none →
      loadStart ns manifest hd st =
        (st, .failedMissingLocaleConfig ⟨"Error", "Missing index for " ++ hd.locale⟩)) := by
  constructor
  · intro ns manifest hd st p h
    simp [loadStart, h]
  · intro ns manifest hd st h1 h2
    simp [loadStart, h1, h2]

/-- Witness for claim C6: a cached key under an unconfigured locale, and a
miss under an unconfigured locale. -/
theorem C6_missing_locale_config_witness :
    loadStart "common" (fun _ => none) ⟨"de", "/i18n"⟩ stWithPhraseDe =
      (stWithPhraseDe, .cachedPhrases 7) ∧
    loadStart "common" (fun _ => none) hdEn emptyLoadSt =
      (emptyLoadSt, .failedMissingLocaleConfig ⟨"Error", "Missing index for en"⟩) := by
  constructor
  · exact C6_missing_locale_config.1 "common" (fun _ => none) ⟨"de", "/i18n"⟩ stWithPhraseDe 7 (by decide)
  · exact C6_missing_locale_config.2 "common" (fun _ => none) hdEn emptyLoadSt (by decide) (by decide)

/-- Claim C9: the composite key built by string concatenation is not
injective — locale `en-US` with namespace `common` and locale `en` with
namespace `US-common` collide — so a `load` for the first pair returns the
phrase promise cached for the second, and `usePolyglot` for the first pair
observes the store entry of the second. -/
theorem C9_key_collision :
    mkId "en-US" "common" = mkId "en" "US-common" ∧
    (("en-US", "common") : String × String) ≠ ("en", "US-common") ∧
    (loadStart "common" manifestAll ⟨"en-US", "/i18n"⟩ stC9).2 = .cachedPhrases 9 ∧
    usePolyglot storeC9 "en-US" (some "common") = .ok 42 := by
  decide

end RemixPolyglot

namespace RemixPolyglot

/-- The index producer never touches the phrase table: both its failure path
and its success path leave `caches.phrases` as they found it. -/
theorem indexSettled_phrases_unchanged (locale : String) (o : FetchOutcome) (c : Caches) :
    (indexOnFetchSettled locale o c).1.phrases = c.phrases := by
  unfold indexOnFetchSettled
  cases o with
  | rejected e => rfl
  | resp status body =>
    by_cases hs : statusOk status
    · cases body with
      | error e => simp [hs]
      | ok j =>
        cases hr : asRecordOfStrings j with
        | some idx => simp [hs, hr]
        | none => simp [hs, hr]
    · simp [hs]

/-- Whenever the index producer rejects, it has already deleted the index
entry for its locale (the `delete` at line 321 precedes the `reject`). -/
theorem indexSettled_error_evicts {locale : String} {o : FetchOutcome} {c : Caches}
    {e : JsError} (h : (indexOnFetchSettled locale o c).2 = .error e) :
    (indexOnFetchSettled locale o c).1.indexes locale = none := by
  unfold indexOnFetchSettled at h ⊢
  cases o with
  | rejected e => simp
  | resp status body =>
    by_cases hs : statusOk status
    · cases body with
      | error e => simp [hs]
      | ok j =>
        cases hr : asRecordOfStrings j with
        | some idx => simp [hs, hr] at h
        | none => simp [hs, hr]
    · simp [hs]

/-- Whenever the phrase producer rejects, it has already deleted the phrase
entry for its key (the `delete` at line 356 precedes the `reject`). -/
theorem phrasesSettled_error_evicts {ns locale : String} {o : FetchOutcome} {c : Caches}
    {e : JsError} (h : (phrasesOnFetchSettled ns locale o c).2 = .error e) :
    (phrasesOnFetchSettled ns locale o c).1.phrases (mkId locale ns) = none := by
  unfold phrasesOnFetchSettled at h ⊢
  cases o with
  | rejected e => simp
  | resp status body =>
    by_cases hs : statusOk status
    · cases body with
      | error e => simp [hs]
      | ok j =>
        by_cases hr : isRecord j
        · simp [hs, hr] at h
        · simp [hs, hr]
    · simp [hs]

end RemixPolyglot

namespace RemixPolyglot

/-- Claim C3: when the shared fetch rejects with an AbortError, the producer
leaves the cache exactly as any non-cancelled failure would (the eviction is
the same deletion, performed inside the shared producer), the AbortError is
re-rejected unchanged so `load` surfaces cancellation as a distinguished
outcome while other failures are wrapped, and the continuation of a waiting
caller depends only on the settlement value, never on the evicted entry. -/
theorem C3_cancellation_shared_eviction :
    (∀ (locale : String) (c : Caches) (e : JsError) (m : String),
      isAbortError e = true →
      (indexOnFetchSettled locale (.rejected e) c).1 =
        (indexOnFetchSettled locale (.rejected ⟨"Error", m⟩) c).1) ∧
    (∀ (locale : String) (c : Caches) (e : JsError),
      isAbortError e = true →
      (indexOnFetchSettled locale (.rejected e) c).2 = .error e) ∧
    (∀ (locale : String) (c : Caches) (m : String),
      (indexOnFetchSettled locale (.rejected ⟨"Error", m⟩) c).2 =
        .error (wrapIndexError locale m)) ∧
    (∀ (ns locale : String) (c : Caches) (e : JsError) (m : String),
      isAbortError e = true →
      (phrasesOnFetchSettled ns locale (.rejected e) c).1 =
        (phrasesOnFetchSettled ns locale (.rejected ⟨"Error", m⟩) c).1) ∧
    (∀ (ns locale : String) (c : Caches) (e : JsError),
      isAbortError e = true →
      (phrasesOnFetchSettled ns locale (.rejected e) c).2 = .error e) ∧
    (∀ (ns : String) (index : List (String × String)) (hd : HandoffData)
        (c c' : Caches) (n : Nat) (g g' : List GetEvent),
      (loadResume ns index hd ⟨c, n, g⟩).2 = (loadResume ns index hd ⟨c', n, g'⟩).2) := by
  refine ⟨?_, ?_, ?_, ?_, ?_, ?_⟩
  · intro locale c e m _
    rfl
  · intro locale c e h
    simp [indexOnFetchSettled, h]
  · intro locale c m
    simp [indexOnFetchSettled, isAbortError]
  · intro ns locale c e m _
    rfl
  · intro ns locale c e h
    simp [phrasesOnFetchSettled, h]
  · intro ns index hd c c2 n g g2
    cases hl : index.lookup ns with
    | none => simp [loadResume, hl]
    | some file =>
      by_cases hf : file == ""
      · simp [loadResume, hl, hf]
      · simp [loadResume, hl, hf]

/-- Witness for claim C3 at concrete cache states and errors. -/
theorem C3_cancellation_shared_eviction_witness :
    (indexOnFetchSettled "en" (.rejected abortE) cachesIdx).1 =
      (indexOnFetchSettled "en" (.rejected ⟨"Error", "network down"⟩) cachesIdx).1 ∧
    (indexOnFetchSettled "en" (.rejected abortE) cachesIdx).2 = .error abortE ∧
    (phrasesOnFetchSettled "common" "en" (.rejected abortE) cachesIdx).2 = .error abortE ∧
    (loadResume "common" c1IndexVal hdEn ⟨cachesIdx, 3, []⟩).2 =
      (loadResume "common" c1IndexVal hdEn ⟨⟨fun _ => none, fun _ => none⟩, 3, []⟩).2 := by
  refine ⟨?_, ?_, ?_, ?_⟩
  · exact C3_cancellation_shared_eviction.1 "en" cachesIdx abortE "network down" (by decide)
  · exact C3_cancellation_shared_eviction.2.1 "en" cachesIdx abortE (by decide)
  · exact C3_cancellation_shared_eviction.2.2.2.2.1 "common" "en" cachesIdx abortE (by decide)
  · exact C3_cancellation_shared_eviction.2.2.2.2.2 "common" c1IndexVal hdEn cachesIdx
      ⟨fun _ => none, fun _ => none⟩ 3 [] []

/-- Claim C4: any failing index or phrase load leaves the cache with no
entry for its key (the deletion happens inside the producer before the
rejection is surfaced), and a subsequent `load` for the same key issues a
brand-new HTTP GET for that resource instead of replaying the failure. -/
theorem C4_failure_evicts_then_refetch :
    (∀ (locale : String) (o : FetchOutcome) (c : Caches) (e : JsError),
      (indexOnFetchSettled locale o c).2 = .error e →
      (indexOnFetchSettled locale o c).1.indexes locale = none) ∧
    (∀ (ns locale : String) (o : FetchOutcome) (c : Caches) (e : JsError),
      (phrasesOnFetchSettled ns locale o c).2 = .error e →
      (phrasesOnFetchSettled ns locale o c).1.phrases (mkId locale ns) = none) ∧
    (∀ (ns entry : String) (manifest : String → Option String) (hd : HandoffData)
        (o : FetchOutcome) (c : Caches) (e : JsError) (n : Nat) (g : List GetEvent),
      (indexOnFetchSettled hd.locale o c).2 = .error e →
      c.phrases (mkId hd.locale ns) = none →
      manifest hd.locale = some entry → entry ≠ "" →
      (loadStart ns manifest hd ⟨(indexOnFetchSettled hd.locale o c).1, n, g⟩).1.gets =
          g ++ [⟨resourceUrl hd.baseUrl hd.locale entry, .indexFile⟩] ∧
        (loadStart ns manifest hd ⟨(indexOnFetchSettled hd.locale o c).1, n, g⟩).2 =
          .awaitIndex n) ∧
    (∀ (ns file : String) (index : List (String × String)) (hd : HandoffData)
        (o : FetchOutcome) (c : Caches) (e : JsError) (n : Nat) (g : List GetEvent),
      (phrasesOnFetchSettled ns hd.locale o c).2 = .error e →
      index.lookup ns = some file → file ≠ "" →
      (loadResume ns index hd ⟨(phrasesOnFetchSettled ns hd.locale o c).1, n, g⟩).1.gets =
        g ++ [⟨resourceUrl hd.baseUrl hd.locale file, .phraseFile⟩]) := by
  refine ⟨?_, ?_, ?_, ?_⟩
  · intro locale o c e h
    exact indexSettled_error_evicts h
  · intro ns locale o c e h
    exact phrasesSettled_error_evicts h
  · intro ns entry manifest hd o c e n g h1 h2 h3 h4
    have hidx := indexSettled_error_evicts h1
    have hph := indexSettled_phrases_unchanged hd.locale o c
    constructor
    · simp [loadStart, hph, h2, h3, h4, hidx]
    · simp [loadStart, hph, h2, h3, h4, hidx]
  · intro ns file index hd o c e n g h1 h2 h3
    simp [loadResume, h2, h3]

end RemixPolyglot

namespace RemixPolyglot

/-- Witness for claim C4: a 404 on either fetch, then a retried load. -/
theorem C4_failure_evicts_then_refetch_witness :
    (indexOnFetchSettled "en" (.resp 404 (.ok (.obj []))) cachesIdx).1.indexes "en" = none ∧
    (phrasesOnFetchSettled "common" "en" (.resp 404 (.ok (.obj []))) cachesPh).1.phrases
        (mkId "en" "common") = none ∧
    ((loadStart "common" manifestEn hdEn
        ⟨(indexOnFetchSettled "en" (.resp 404 (.ok (.obj []))) cachesIdx).1, 3, []⟩).1.gets =
      [⟨resourceUrl "/i18n" "en" "idx-en.json", .indexFile⟩] ∧
     (loadStart "common" manifestEn hdEn
        ⟨(indexOnFetchSettled "en" (.resp 404 (.ok (.obj []))) cachesIdx).1, 3, []⟩).2 =
      .awaitIndex 3) ∧
    (loadResume "common" c1IndexVal hdEn
        ⟨(phrasesOnFetchSettled "common" "en" (.resp 404 (.ok (.obj []))) cachesPh).1, 5,
          []⟩).1.gets =
      [⟨resourceUrl "/i18n" "en" "common-en.json", .phraseFile⟩] := by
  refine ⟨?_, ?_, ?_, ?_⟩
  · exact C4_failure_evicts_then_refetch.1 "en" (.resp 404 (.ok (.obj []))) cachesIdx
      (wrapIndexError "en" "Failed to load") (by decide)
  · exact C4_failure_evicts_then_refetch.2.1 "common" "en" (.resp 404 (.ok (.obj []))) cachesPh
      (wrapPhrasesError "common" "en" "Failed to load phrases") (by rfl)
  · exact C4_failure_evicts_then_refetch.2.2.1 "common" "idx-en.json" manifestEn hdEn
      (.resp 404 (.ok (.obj []))) cachesIdx (wrapIndexError "en" "Failed to load") 3 []
      (by decide) (by decide) (by decide) (by decide)
  · exact C4_failure_evicts_then_refetch.2.2.2 "common" "common-en.json" c1IndexVal hdEn
      (.resp 404 (.ok (.obj []))) cachesPh (wrapPhrasesError "common" "en" "Failed to load phrases")
      5 [] (by rfl) (by decide) (by decide)

/-- Claim C7: the patched hook returns exactly the outcome of the original
hook — the translation load can never reject it, because its failures are
caught: an AbortError is swallowed with an empty console log while any other
failure is logged, and the route data is returned either way. -/
theorem C7_wrapped_hook_transparent :
    (∀ (α : Type) (orig : Except JsError α) (tr : Option TranslationOutcome),
      (wrappedHookResult orig tr).1 = orig) ∧
    (∀ (α : Type) (orig : Except JsError α) (e : JsError), isAbortError e = true →
      (wrappedHookResult orig (some (.failed e))).2 = []) ∧
    (∀ (α : Type) (orig : Except JsError α) (e : JsError), isAbortError e = false →
      (wrappedHookResult orig (some (.failed e))).2 = [e]) ∧
    (∀ (α : Type) (orig : Except JsError α),
      (wrappedHookResult orig (some .resolved)).2 = [] ∧
        (wrappedHookResult orig none).2 = []) := by
  refine ⟨?_, ?_, ?_, ?_⟩
  · intro α orig tr
    cases tr with
    | none => cases orig <;> rfl
    | some t =>
      cases t with
      | resolved => cases orig <;> rfl
      | failed e =>
        by_cases h : isAbortError e <;> cases orig <;>
          simp [wrappedHookResult, catchTranslation, promiseAll2, h, Except.map]
  · intro α orig e h
    simp [wrappedHookResult, catchTranslation, h]
  · intro α orig e h
    simp [wrappedHookResult, catchTranslation, h]
  · intro α orig
    constructor <;> rfl

/-- Witness for claim C7 at concrete outcomes. -/
theorem C7_wrapped_hook_transparent_witness :
    (wrappedHookResult (.ok 3) (some (.failed abortE))).1 = (.ok 3 : Except JsError Nat) ∧
    (wrappedHookResult (.ok 3 : Except JsError Nat) (some (.failed abortE))).2 = [] ∧
    (wrappedHookResult (.ok 3 : Except JsError Nat)
        (some (.failed ⟨"Error", "boom"⟩))).2 = [⟨"Error", "boom"⟩] := by
  refine ⟨?_, ?_, ?_⟩
  · exact C7_wrapped_hook_transparent.1 Nat (.ok 3) (some (.failed abortE))
  · exact C7_wrapped_hook_transparent.2.1 Nat (.ok 3) abortE (by decide)
  · exact C7_wrapped_hook_transparent.2.2.1 Nat (.ok 3) ⟨"Error", "boom"⟩ (by decide)

/-- Claim C8: the store merge is an additive union keyed by the composite
key — it removes no existing entry, a key present in the new entries takes
the new value, and merging the same entries twice leaves the store equal to
merging them once. -/
theorem C8_merge_additive_idempotent :
    (∀ (α : Type) (current more : String → Option α) (k : String) (v : α),
      current k = some v → ∃ w, mergeStore current more k = some w) ∧
    (∀ (α : Type) (current more : String → Option α) (k : String) (v : α),
      more k = some v → mergeStore current more k = some v) ∧
    (∀ (α : Type) (current more : String → Option α),
      mergeStore (mergeStore current more) more = mergeStore current more) := by
  refine ⟨?_, ?_, ?_⟩
  · intro α current more k v h
    cases hm : more k with
    | none => exact ⟨v, by simp [mergeStore, hm, h]⟩
    | some w => exact ⟨w, by simp [mergeStore, hm]⟩
  · intro α current more k v h
    simp [mergeStore, h]
  · intro α current more
    funext k
    cases hm : more k <;> simp [mergeStore, hm]

/-- Witness for claim C8 at concrete stores. -/
theorem C8_merge_additive_idempotent_witness :
    (∃ w, mergeStore storeCur storeMore (mkId "en" "common") = some w) ∧
    mergeStore storeCur storeMore (mkId "en" "home") = some 2 ∧
    mergeStore (mergeStore storeCur storeMore) storeMore = mergeStore storeCur storeMore := by
  refine ⟨?_, ?_, ?_⟩
  · exact C8_merge_additive_idempotent.1 Nat storeCur storeMore (mkId "en" "common") 1 (by decide)
  · exact C8_merge_additive_idempotent.2.1 Nat storeCur storeMore (mkId "en" "home") 2 (by decide)
  · exact C8_merge_additive_idempotent.2.2 Nat storeCur storeMore

/-- Claim C10: `usePolyglot` defaults the namespace to `common`; when the
exact composite key is absent from the store it fails with the
unknown-namespace error; and its result depends only on the store at that
exact key, so there is no locale fallback. -/
theorem C10_usePolyglot_default_and_exact_key :
    (∀ (α : Type) (store : String → Option α) (locale : String),
      usePolyglot store locale none = usePolyglot store locale (some "common")) ∧
    (∀ (α : Type) (store : String → Option α) (locale ns : String),
      store (mkId locale ns) = none →
      usePolyglot store locale (some ns) =
        .error ⟨"Error", "Unknown namespace " ++ ns ++ " in " ++ locale⟩) ∧
    (∀ (α : Type) (s1 s2 : String → Option α) (locale ns : String),
      s1 (mkId locale ns) = s2 (mkId locale ns) →
      usePolyglot s1 locale (some ns) = usePolyglot s2 locale (some ns)) := by
  refine ⟨?_, ?_, ?_⟩
  · intro α store locale
    rfl
  · intro α store locale ns h
    simp [usePolyglot, h]
  · intro α s1 s2 locale ns h
    simp [usePolyglot, h]

/-- Witness for claim C10 at concrete stores. -/
theorem C10_usePolyglot_default_and_exact_key_witness :
    usePolyglot storeC9 "en" none = usePolyglot storeC9 "en" (some "common") ∧
    usePolyglot storeC9 "en" (some "common") =
      .error ⟨"Error", "Unknown namespace common in en"⟩ ∧
    usePolyglot storeC9 "fr" (some "x") =
      usePolyglot (fun _ => (none : Option Nat)) "fr" (some "x") := by
  refine ⟨?_, ?_, ?_⟩
  · exact C10_usePolyglot_default_and_exact_key.1 Nat storeC9 "en"
  · exact C10_usePolyglot_default_and_exact_key.2.1 Nat storeC9 "en" "common" (by decide)
  · exact C10_usePolyglot_default_and_exact_key.2.2 Nat storeC9 (fun _ => none) "fr" "x" (by decide)

end RemixPolyglot

namespace RemixPolyglot

/-- The batch invariant holds at the start of a tick. -/
theorem tickInv_init (loads : List Nat) (hooks : List Hook) :
    tickInv loads (initTick loads hooks) := by
  refine ⟨by simp [initTick, countCommits], ?_, by simp [initTick, commitsAfterSettles]⟩
  intro i hi
  exact Or.inl hi

/-- Every enabled scheduler step preserves the batch invariant. -/
theorem tickInv_step {loads : List Nat} {s t : TickState} {c : Cmd}
    (hstep : stepCmd s c = some t) (hinv : tickInv loads s) : tickInv loads t := by
  obtain ⟨hbound, hacct, horder⟩ := hinv
  cases c with
  | settleLoad i =>
    simp only [stepCmd] at hstep
    split at hstep
    case isTrue hc =>
      simp only [Option.some.injEq] at hstep
      subst hstep
      refine ⟨by simpa [countCommits] using hbound, ?_, by simpa [commitsAfterSettles] using horder⟩
      intro j hj
      rcases hacct j hj with hp | ht
      · by_cases hij : j = i
        · exact Or.inr (by simp [hij])
        · exact Or.inl (by simpa [List.mem_erase_of_ne hij] using hp)
      · exact Or.inr (List.mem_cons_of_mem _ ht)
    case isFalse => cases hstep
  | runHook h =>
    simp only [stepCmd] at hstep
    split at hstep
    case isTrue hen =>
      split at hstep
      case isTrue hcommit =>
        simp only [Option.some.injEq] at hstep
        subst hstep
        have hrc : s.refCurrent = false := by
          rcases Bool.and_eq_true_iff.mp hcommit with ⟨h1, _⟩
          simpa using h1
        have hz := hbound
        rw [hrc] at hz
        simp at hz
        refine ⟨?_, hacct, horder⟩
        simp [hz.1, hz.2]
      case isFalse =>
        simp only [Option.some.injEq] at hstep
        subst hstep
        exact ⟨hbound, hacct, horder⟩
    case isFalse => cases hstep
  | fireCommit l =>
    simp only [stepCmd] at hstep
    split at hstep
    case isTrue hen =>
      simp only [Option.some.injEq] at hstep
      subst hstep
      rcases Bool.and_eq_true_iff.mp hen with ⟨hmem, hempty⟩
      have hmem2 : l ∈ s.scheduledCommits := by simpa using hmem
      have hempty2 : s.pendingLoads = [] := by simpa [List.isEmpty_iff] using hempty
      have hlen : (s.scheduledCommits.erase l).length = s.scheduledCommits.length - 1 :=
        List.length_erase_of_mem hmem2
      have hpos : 0 < s.scheduledCommits.length := List.length_pos_of_mem hmem2
      have hsettled : ∀ i ∈ loads, Ev.settledLoad i ∈ s.trace := by
        intro i hi
        rcases hacct i hi with hp | ht
        · rw [hempty2] at hp
          cases hp
        · exact ht
      refine ⟨?_, ?_, ?_⟩
      · simp only [countCommits] at hbound ⊢
        simp [List.countP_cons, hlen]
        omega
      · intro i hi
        exact Or.inr (List.mem_cons_of_mem _ (hsettled i hi))
      · simp only [commitsAfterSettles, Bool.and_eq_true, List.all_eq_true]
        constructor
        · intro i hi
          simpa using hsettled i hi
        · exact horder
    case isFalse => cases hstep

end RemixPolyglot

namespace RemixPolyglot

/-- The batch invariant is preserved along any schedule. -/
theorem tickInv_runCmds {loads : List Nat} {cmds : List Cmd} {s t : TickState}
    (h : runCmds s cmds = some t) (hinv : tickInv loads s) : tickInv loads t := by
  induction cmds generalizing s with
  | nil =>
    simp only [runCmds, Option.some.injEq] at h
    exact h ▸ hinv
  | cons c cs ih =>
    simp only [runCmds] at h
    cases hs : stepCmd s c with
    | none => rw [hs] at h; cases h
    | some u =>
      rw [hs] at h
      simp only [Option.some_bind] at h
      exact ih h (tickInv_step hs hinv)

/-- Claim C2: in any schedule of one navigation tick, `setLocale` runs at
most once regardless of how many patched hooks requested a locale change,
and every `setLocale` event in the trace is strictly preceded by settle
events for all loads registered in the batch, successful or failed alike. -/
theorem C2_commit_once_after_all_settled (loads : List Nat) (hooks : List Hook)
    (cmds : List Cmd) (s : TickState)
    (h : runCmds (initTick loads hooks) cmds = some s) :
    countCommits s.trace ≤ 1 ∧ commitsAfterSettles loads s.trace = true := by
  obtain ⟨hbound, hacct, horder⟩ := tickInv_runCmds h (tickInv_init loads hooks)
  refine ⟨?_, horder⟩
  have h1 : countCommits s.trace ≤ (if s.refCurrent then 1 else 0) :=
    le_trans (Nat.le_add_right _ _) hbound
  by_cases hr : s.refCurrent <;> simp [hr] at h1 <;> omega

end RemixPolyglot

namespace RemixPolyglot

/-- Witness for claim C2 on a concrete two-hook, two-load tick. -/
theorem C2_commit_once_after_all_settled_witness :
    countCommits c2Final.trace ≤ 1 ∧ commitsAfterSettles [0, 1] c2Final.trace = true :=
  C2_commit_once_after_all_settled [0, 1] c2Hooks c2Cmds c2Final (by decide)

end RemixPolyglot
